import Mathlib

/-!
Verification development for a penrose-based X11 window-manager
configuration (`src/main.rs`).  The configuration file itself is embedded
faithfully; the parts of the window-manager engine that the configuration
depends on but that are not present in the source tree (the penrose
library: layout stacks, the Gaps transformer, hook composition, the
ClientSet) are modelled from the specification, as marked in their doc
comments.  The X connection is an external collaborator and is modelled
as an oracle supplying the result of each fallible X call; hooks return,
alongside their result, the trace of X calls they issued.
-/

/-- X errors are opaque; only their propagation matters here. -/
abbrev XError := String

/-- A screen/window rectangle (x, y, width, height), as in the engine's
geometry type.  Machine integers are modelled as `Nat`; no arithmetic in
the configuration can overflow `u32`. -/
structure Rect where
  x : Nat
  y : Nat
  w : Nat
  h : Nat
deriving DecidableEq, Repr

/-- Shrink a rectangle by a uniform inset `g` on every side
(truncated subtraction on width/height). -/
def shrinkRect (r : Rect) (g : Nat) : Rect :=
  { x := r.x + g, y := r.y + g, w := r.w - 2 * g, h := r.h - 2 * g }

/-- Layout messages (`IncMain`, `ExpandMain`, `ShrinkMain` from the
builtin message set, plus an opaque catch-all). -/
inductive Message where
  | incMain (n : Int)
  | expandMain
  | shrinkMain
  | custom (s : String)
deriving DecidableEq, Repr

/-- Layouts used by the configuration.  `mainAndStack` and `monocle` are
modelled from the spec: "a 'main + stack' split layout and a 'monocle'
(single fullscreen) layout; decorator variants (e.g., a gap-inserting
wrapper) compose around a base layout without altering its interface."
`MainAndStack::boxed_default()` carries a main-window count (default 1)
and a main-area ratio (default 60 percent, modelled as a `Nat` percent).
`gaps o i l` is the `Gaps::wrap(l, o, i)` transformer. -/
inductive Layout where
  | mainAndStack (maxMain : Nat) (ratioPct : Nat)
  | monocle
  | gaps (outer : Nat) (inner : Nat) (l : Layout)
deriving DecidableEq, Repr

/-- Split a region into `k` equal-height rows (modelling helper for the
main-and-stack column layout). -/
def evenRows (r : Rect) (k : Nat) : List Rect :=
  (List.range k).map fun i =>
    { x := r.x, y := r.y + i * (r.h / k), w := r.w, h := r.h / k }

/-- Modelled from the spec: the "main + stack" split layout places up to
`maxMain` windows in a main column of width `ratioPct` percent of the
region and stacks the remaining windows in the rest; with no stack
windows the main windows use the whole region. -/
def mainAndStackApply (maxMain ratioPct : Nat) (ws : List Nat) (r : Rect) :
    List (Nat × Rect) :=
  let m := min maxMain ws.length
  let mains := ws.take m
  let rest := ws.drop m
  if rest.isEmpty then
    List.zip mains (evenRows r mains.length)
  else
    let mainW := r.w * ratioPct / 100
    let mainRect : Rect := { x := r.x, y := r.y, w := mainW, h := r.h }
    let stackRect : Rect := { x := r.x + mainW, y := r.y, w := r.w - mainW, h := r.h }
    List.zip mains (evenRows mainRect mains.length) ++
      List.zip rest (evenRows stackRect rest.length)

/-- Translation of `Layout::apply`: "given an ordered sequence of Windows and a screen
region, produce a sequence of (Window, rectangle) placements."  The Gaps
wrapper is modelled from the spec: "wraps an inner layout's output
rectangles by shrinking each by a fixed inset, applied uniformly to all
placements including the screen's outer edge"; the inset applied to each
placement rectangle is the wrapper's inner gap. -/
def Layout.apply : Layout → List Nat → Rect → List (Nat × Rect)
  | .mainAndStack maxMain ratioPct, ws, r => mainAndStackApply maxMain ratioPct ws r
  | .monocle, ws, r =>
    match ws with
    | [] => []
    | w :: _ => [(w, r)]
  | .gaps _o i l, ws, r => (l.apply ws r).map fun p => (p.1, shrinkRect p.2 i)

/-- Delivery of `send_message` to a layout: typed messages update the active
layout's parameter state; "unrecognized messages are ignored, not
errors"; the Gaps wrapper forwards messages to the wrapped layout
unchanged (modelled from the spec). -/
def Layout.handleMessage : Layout → Message → Layout
  | .mainAndStack maxMain ratioPct, .incMain n =>
    .mainAndStack ((maxMain : Int) + n).toNat ratioPct
  | .mainAndStack maxMain ratioPct, .expandMain =>
    .mainAndStack maxMain (min 100 (ratioPct + 10))
  | .mainAndStack maxMain ratioPct, .shrinkMain =>
    .mainAndStack maxMain (ratioPct - 10)
  | .mainAndStack maxMain ratioPct, .custom _ => .mainAndStack maxMain ratioPct
  | .monocle, _ => .monocle
  | .gaps o i l, m => .gaps o i (l.handleMessage m)

/-- Translation of `Gaps::wrap(layout, outer_px, inner_px)`. -/
def Gaps.wrap (l : Layout) (outer inner : Nat) : Layout :=
  .gaps outer inner l

/-- The engine's non-empty zipper stack (`stack!` builds one with the
first element focused and the rest below). -/
structure Stack (α : Type) where
  up : List α
  focus : α
  down : List α
deriving DecidableEq, Repr

/-- All elements of a stack, in order. -/
def Stack.toList (s : Stack α) : List α :=
  s.up.reverse ++ s.focus :: s.down

/-- Number of elements of a stack. -/
def Stack.length (s : Stack α) : Nat :=
  s.up.length + 1 + s.down.length

/-- Translation of `Stack::map`: apply a function to every element, preserving
structure. -/
def Stack.map (f : α → β) (s : Stack α) : Stack β :=
  { up := s.up.map f, focus := f s.focus, down := s.down.map f }

/-- Modelled from the spec: cycling the stack cursor forward, wrapping
("supports cyclic next/previous"). -/
def Stack.focusDown (s : Stack α) : Stack α :=
  match s.down with
  | d :: ds => { up := s.focus :: s.up, focus := d, down := ds }
  | [] =>
    match s.up.reverse with
    | [] => s
    | hd :: tl => { up := [], focus := hd, down := tl ++ [s.focus] }

/-- Modelled from the spec: cycling the stack cursor backward,
wrapping. -/
def Stack.focusUp (s : Stack α) : Stack α :=
  match s.up with
  | u :: us => { up := us, focus := u, down := s.focus :: s.down }
  | [] =>
    match s.down.reverse with
    | [] => s
    | hd :: tl => { up := tl ++ [s.focus], focus := hd, down := [] }

/-- A LayoutStack is a stack of layouts. -/
abbrev LayoutStack := Stack Layout

/-- Translation of `layouts()` from the configuration:
`stack!(MainAndStack::boxed_default(), Monocle::boxed()).map(|layout| Gaps::wrap(layout, 10, 10))`. -/
def layouts : LayoutStack :=
  Stack.map (fun layout => Gaps.wrap layout 10 10)
    { up := [], focus := .mainAndStack 1 60, down := [.monocle] }

/-- The two atoms the configuration names (`Atom::NetWmState`,
`Atom::NetWmStateFullscreen`). -/
inductive Atom where
  | netWmState
  | netWmStateFullscreen
deriving DecidableEq, Repr

/-- Translation of `Atom::as_ref()`: the EWMH atom name. -/
def Atom.as_ref : Atom → String
  | .netWmState => "_NET_WM_STATE"
  | .netWmStateFullscreen => "_NET_WM_STATE_FULLSCREEN"

/-- X property values (`Prop::Cardinal(Vec<u32>)` plus an opaque
catch-all for the other variants). -/
inductive XProp where
  | cardinal (vals : List Nat)
  | other (tag : String)
deriving DecidableEq, Repr

/-- Client configuration deltas (`ClientConfig::BorderPx` plus an opaque
catch-all for the other variants). -/
inductive ClientConfig where
  | borderPx (px : Nat)
  | other (tag : String)
deriving DecidableEq, Repr

/-- An X / process side effect issued by a hook: the trace element a
modelled call appends when the corresponding library call is made. -/
inductive XCall where
  | internAtom (name : String)
  | getProp (id : Nat) (name : String)
  | setClientConfig (id : Nat) (data : List ClientConfig)
  | spawn (cmd : String)
deriving DecidableEq, Repr

/-- The X connection oracle: for each fallible external call, the result
the X server would return.  This models the `XConn` trait and
`util::spawn` as external collaborators. -/
structure XEnv where
  internAtom : String → Except XError Nat
  getProp : Nat → String → Except XError (Option XProp)
  setClientConfig : Nat → List ClientConfig → Except XError Unit
  spawn : String → Except XError Unit

/-- Translation of `PropertyEvent { id, atom, is_root }`; the configuration
destructures only `id`. -/
structure PropertyEvent where
  id : Nat
  atom : String
  is_root : Bool
deriving DecidableEq, Repr

/-- X events, following the event kinds the spec lists: "key/button
press, property-change, randr (monitor) change, plus window lifecycle
(map/unmap/destroy) notifications". -/
inductive XEvent where
  | keyPress (code : Nat)
  | buttonPress (button : Nat)
  | propertyNotify (e : PropertyEvent)
  | randrNotify
  | mapRequest (id : Nat)
  | unmapNotify (id : Nat)
  | destroyNotify (id : Nat)
deriving DecidableEq, Repr

/-- The slice of `Config` that hook code reads (`state.config.border_width`). -/
structure StateConfig where
  border_width : Nat
deriving DecidableEq, Repr

/-- The slice of the window-manager `State<X>` that the two hooks can
observe or mutate. -/
structure WMState where
  config : StateConfig
deriving DecidableEq, Repr

/-- Translation of `FullScreenHook { fullscreen_border_px: u32 }`. -/
structure FullScreenHook where
  fullscreen_border_px : Nat
deriving DecidableEq, Repr

/-- Translation of `MonitorHook { wallpaper_path: String }`. -/
structure MonitorHook where
  wallpaper_path : String
deriving DecidableEq, Repr

/-- Translation of `FullScreenHook::call` from `src/main.rs` lines 44-63.
On a `PropertyNotify` event it interns `_NET_WM_STATE_FULLSCREEN` (the
`?` propagates an interning error), then pattern-matches
`x.get_prop(*id, net_wm_state)` against `Ok(Some(Prop::Cardinal(vals)))`
(any other outcome, error included, is silently skipped), and on a match
sets the window's border width (the `?` propagates a config error).
Returns the hook result, the (unchanged) state, and the trace of X calls
issued. -/
def FullScreenHook.call (hook : FullScreenHook) (event : XEvent) (state : WMState)
    (x : XEnv) : Except XError Bool × WMState × List XCall :=
  match event with
  | .propertyNotify e =>
    let net_wm_state := Atom.netWmState.as_ref
    match x.internAtom Atom.netWmStateFullscreen.as_ref with
    | .error err => (.error err, state, [.internAtom Atom.netWmStateFullscreen.as_ref])
    | .ok full_screen =>
      match x.getProp e.id net_wm_state with
      | .ok (some (.cardinal vals)) =>
        let data := [ClientConfig.borderPx (if vals.contains full_screen then
            hook.fullscreen_border_px
          else
            state.config.border_width)]
        match x.setClientConfig e.id data with
        | .error err =>
          (.error err, state,
            [.internAtom Atom.netWmStateFullscreen.as_ref,
             .getProp e.id net_wm_state, .setClientConfig e.id data])
        | .ok _ =>
          (.ok true, state,
            [.internAtom Atom.netWmStateFullscreen.as_ref,
             .getProp e.id net_wm_state, .setClientConfig e.id data])
      | _ =>
        (.ok true, state,
          [.internAtom Atom.netWmStateFullscreen.as_ref,
           .getProp e.id net_wm_state])
  | _ => (.ok true, state, [])

/-- Translation of `MonitorHook::call` from `src/main.rs` lines 70-78: on a
`RandrNotify` event it spawns `feh` on the configured wallpaper (the `?`
propagates a spawn error); on every other event it does nothing.  The
state argument is ignored by the source (`_` binder). -/
def MonitorHook.call (hook : MonitorHook) (event : XEvent) (state : WMState)
    (x : XEnv) : Except XError Bool × WMState × List XCall :=
  match event with
  | .randrNotify =>
    let cmd := "feh --bg-max " ++ hook.wallpaper_path ++ " --no-fehbg"
    match x.spawn cmd with
    | .error err => (.error err, state, [.spawn cmd])
    | .ok _ => (.ok true, state, [.spawn cmd])
  | _ => (.ok true, state, [])

/-- The event-hook chain.  The two leaf hooks are the configuration's
`FullScreenHook` and `MonitorHook`; `composed` is the chain the engine
builds when a second hook is registered. -/
inductive Hook where
  | fullScreen (h : FullScreenHook)
  | monitor (h : MonitorHook)
  | composed (first : Hook) (second : Hook)

/-- Running a hook chain.  `composed` is modelled from the spec: each
hook "returns whether processing should continue to the next hook
('true' = continue, 'false' = swallow event)", and "hooks registered
later run after earlier ones and observe state mutations made by earlier
hooks in the same event" — so the second hook runs exactly when the
first returned `Ok(true)`, on the state the first produced. -/
def Hook.call : Hook → XEvent → WMState → XEnv → Except XError Bool × WMState × List XCall
  | .fullScreen h, event, state, x => h.call event state x
  | .monitor h, event, state, x => h.call event state x
  | .composed first second, event, state, x =>
    match first.call event state x with
    | (.ok true, state1, calls1) =>
      match second.call event state1 x with
      | (res, state2, calls2) => (res, state2, calls1 ++ calls2)
    | (res, state1, calls1) => (res, state1, calls1)

/-- The slice of `Config` that `main` assembles (`default_layouts`,
`focused_border`, `event_hook`; `border_width` keeps the engine
default). -/
structure Config where
  default_layouts : LayoutStack
  focused_border : Nat
  border_width : Nat
  event_hook : Option Hook

/-- Translation of `Config::default()` for those fields (penrose defaults: no event
hook; border width 1 pixel). -/
def Config.default : Config :=
  { default_layouts := layouts, focused_border := 0, border_width := 1,
    event_hook := none }

/-- Modelled from the spec: `compose_or_set_event_hook` registers a
further hook on the configuration's optional composable event-hook
chain; a hook registered later runs after the existing one. -/
def Config.compose_or_set_event_hook (c : Config) (h : Hook) : Config :=
  { c with event_hook := some (match c.event_hook with
      | some existing => Hook.composed existing h
      | none => h) }

/-- Modelled from the spec: EWMH compliance hooks are out of scope
("consumed via the interfaces in §6 ... EWMH compliance hooks"), so
`add_ewmh_hooks` is modelled as leaving the configuration's event-hook
chain untouched. -/
def add_ewmh_hooks (c : Config) : Config := c

/-- Translation of `WHITE` from the configuration. -/
def WHITE : Nat := 0xffffffff

/-- The `FullScreenHook` value constructed in `main`
(`fullscreen_border_px: 0`). -/
def mainFullScreenHook : FullScreenHook := { fullscreen_border_px := 0 }

/-- The `MonitorHook` value constructed in `main`. -/
def mainMonitorHook : MonitorHook :=
  { wallpaper_path := "/home/praneeth/Pictures/wall5.jpg" }

/-- The configuration value `main` hands to `WindowManager::new`:
`add_ewmh_hooks` over the literal `Config` (with `FullScreenHook` as the
event hook), then `compose_or_set_event_hook(MonitorHook)`. -/
def mainConfig : Config :=
  (add_ewmh_hooks
    { Config.default with
      default_layouts := layouts
      focused_border := WHITE
      event_hook := some (.fullScreen mainFullScreenHook) }).compose_or_set_event_hook
    (.monitor mainMonitorHook)

/-- The steps of `main` whose execution order the startup claims are
about. -/
inductive MainStep where
  | connNew
  | parseKeybindings
  | wmNew
  | run
deriving DecidableEq, Repr

/-- Key-binding actions that mutate the ClientSet (the closures passed
to `modify_with`). -/
inductive ClientSetAction where
  | focusUp
  | focusDown
  | swapDown
  | swapUp
  | killFocused
  | toggleTag
  | nextScreen
  | previousScreen
  | pullUnfocussedTagToScreen
  | nextLayout
  | previousLayout
  | focusTag (tag : String)
  | moveFocusedToTag (tag : String)
deriving DecidableEq, Repr

/-- A bound key handler (the boxed `KeyEventHandler` values of the
configuration, by shape). -/
inductive KeyHandler where
  | modifyWith (a : ClientSetAction)
  | sendLayoutMessage (m : Message)
  | toggleFullscreen
  | toggleFloatingFocused
  | exit
  | spawn (cmd : String)
  | focusOrSpawn (cls : String) (cmd : String)
deriving DecidableEq, Repr

/-- A string-keyed binding table.  `Rust`'s `HashMap` is modelled as an
association list whose insert replaces the value of an existing key
(key uniqueness is enforced by the map). -/
abbrev BindingTable := List (String × KeyHandler)

/-- Insert for the `HashMap` model: replace the entry for `k` if present, append
otherwise. -/
def insertKB (m : BindingTable) (k : String) (v : KeyHandler) : BindingTable :=
  if m.any (fun p => p.1 = k) then
    m.map (fun p => if p.1 = k then (k, v) else p)
  else
    m ++ [(k, v)]

/-- Lookup for the `HashMap` model. -/
def lookupKB (m : BindingTable) (k : String) : Option KeyHandler :=
  (m.find? (fun p => p.1 = k)).map Prod.snd

/-- Build a table from a pair list by repeated insertion (the semantics
of `map!` / `HashMap::extend`). -/
def buildKB (init : BindingTable) (pairs : List (String × KeyHandler)) : BindingTable :=
  pairs.foldl (fun m p => insertKB m p.1 p.2) init

/-- The literal chord/handler pairs of the `map!` block in
`raw_key_bindings`, in source order. -/
def rawBindingPairs : List (String × KeyHandler) :=
  [("M-Left", .modifyWith .focusUp),
   ("M-Up", .modifyWith .focusUp),
   ("M-Right", .modifyWith .focusDown),
   ("M-Down", .modifyWith .focusDown),
   ("M-S-k", .modifyWith .swapDown),
   ("M-S-j", .modifyWith .swapUp),
   ("M-q", .modifyWith .killFocused),
   ("M-Tab", .modifyWith .toggleTag),
   ("M-bracketright", .modifyWith .nextScreen),
   ("M-bracketleft", .modifyWith .previousScreen),
   ("M-S-Tab", .modifyWith .pullUnfocussedTagToScreen),
   ("M-grave", .modifyWith .nextLayout),
   ("M-S-grave", .modifyWith .previousLayout),
   ("M-S-Up", .sendLayoutMessage (.incMain 1)),
   ("M-S-Down", .sendLayoutMessage (.incMain (-1))),
   ("M-S-Right", .sendLayoutMessage .expandMain),
   ("M-S-Left", .sendLayoutMessage .shrinkMain),
   ("M-f", .toggleFullscreen),
   ("M-space", .toggleFloatingFocused),
   ("M-S-q", .exit),
   ("M-p", .spawn "dmenu_run"),
   ("M-c", .spawn "emacsclient -c"),
   ("M-Return", .spawn "starteshell"),
   ("M-d", .spawn "startdired"),
   ("M-b", .spawn "thorium"),
   ("M-v", .spawn "code"),
   ("M-l", .spawn "xsecurelock"),
   ("M-S-s", .spawn "flameshot gui"),
   ("Print", .spawn "flameshot screen"),
   ("M-S-c", .spawn "xcolor -s clipboard"),
   ("M-s", .focusOrSpawn "spotify" "spotify"),
   ("XF86AudioRaiseVolume", .spawn "pactl set-sink-volume @DEFAULT_SINK@ +5%"),
   ("XF86AudioLowerVolume", .spawn "pactl set-sink-volume @DEFAULT_SINK@ -5%"),
   ("XF86AudioMute", .spawn "pamixer -t"),
   ("XF86MonBrightnessUp", .spawn "light -A 5"),
   ("XF86MonBrightnessDown", .spawn "light -U 5"),
   ("XF86AudioPlay", .spawn "dbus-send --print-reply --dest=org.mpris.MediaPlayer2.spotify /org/mpris/MediaPlayer2 org.mpris.MediaPlayer2.Player.PlayPause"),
   ("XF86AudioNext", .spawn "dbus-send --print-reply --dest=org.mpris.MediaPlayer2.spotify /org/mpris/MediaPlayer2 org.mpris.MediaPlayer2.Player.Next"),
   ("XF86AudioPrev", .spawn "dbus-send --print-reply --dest=org.mpris.MediaPlayer2.spotify /org/mpris/MediaPlayer2 org.mpris.MediaPlayer2.Player.Previous")]

/-- The tag names of the `for` loop in `raw_key_bindings`. -/
def tagNames : List String := ["1", "2", "3", "4", "5", "6", "7", "8", "9"]

/-- Translation of `raw_key_bindings()` from the configuration: the `map!` block built
into a table, then, for each tag `t`, the loop extends it with
`M-t => focus_tag(t)` and `M-S-t => move_focused_to_tag(t)`. -/
def raw_key_bindings : BindingTable :=
  tagNames.foldl
    (fun m tag =>
      buildKB m
        [("M-" ++ tag, .modifyWith (.focusTag tag)),
         ("M-S-" ++ tag, .modifyWith (.moveFocusedToTag tag))])
    (buildKB [] rawBindingPairs)

/-- Oracle for the fallible external steps `main` takes, in order:
`RustConn::new()`, `parse_keybindings_with_xmodmap(...)` (applied to the
raw binding table), `WindowManager::new(...)`, and `run()`.  Each is
library code external to the configuration; only success/failure flows
through `main`'s `?` operators. -/
structure MainEnv where
  connNew : Except XError Unit
  parseKeybindings : BindingTable → Except XError Unit
  wmNew : Except XError Unit
  runResult : Except XError Unit

/-- Translation of `main()` from the configuration, as the sequence of fallible steps
it performs with `?`-style early return, together with the trace of
steps reached: connect, parse the key bindings (over
`raw_key_bindings()`), build the configuration value (pure), construct
the window manager, run. -/
def mainProg (env : MainEnv) : Except XError Unit × List MainStep :=
  match env.connNew with
  | .error e => (.error e, [.connNew])
  | .ok _ =>
    match env.parseKeybindings raw_key_bindings with
    | .error e => (.error e, [.connNew, .parseKeybindings])
    | .ok _ =>
      let _config := mainConfig
      match env.wmNew with
      | .error e => (.error e, [.connNew, .parseKeybindings, .wmNew])
      | .ok _ =>
        (env.runResult, [.connNew, .parseKeybindings, .wmNew, .run])

/-- A physical screen: its index and the tag it currently shows
(modelled from the spec: "every Screen shows exactly one Tag"). -/
structure CSScreen where
  index : Nat
  tag : String
deriving DecidableEq, Repr

/-- Modelled from the spec: the slice of the ClientSet that the
`"M-S-Tab"` binding's closure touches — the focused screen
(`current_screen()`) and the snapshot sequence of all screens
(`screens()`). -/
structure ClientSet where
  current : CSScreen
  screens : List CSScreen
deriving DecidableEq, Repr

/-- Translation of `cs.current_screen()`. -/
def ClientSet.current_screen (cs : ClientSet) : CSScreen := cs.current

/-- Modelled from the spec: `tag_for_screen(index)` "fails/returns empty
if index invalid" — it returns the tag of the screen with that index if
one exists. -/
def ClientSet.tag_for_screen (cs : ClientSet) (i : Nat) : Option String :=
  (cs.screens.find? (fun s => s.index = i)).map (fun s => s.tag)

/-- Modelled from the spec: `pull_tag_to_screen(name)` "forces Tag
`name` to be displayed on the focused Screen, displacing whatever Tag
was there". -/
def ClientSet.pull_tag_to_screen (cs : ClientSet) (name : String) : ClientSet :=
  { current := { cs.current with tag := name },
    screens := cs.screens.map (fun s =>
      if s.index = cs.current.index then { s with tag := name } else s) }

/-- The `"M-S-Tab"` closure from `raw_key_bindings`: collect the screens
whose index differs from the focused screen's, and if there is a first
one, pull its tag (looked up with `tag_for_screen(...).unwrap()`) to the
focused screen.  The `unwrap()` is modelled by `Option`: `none` is the
panic. -/
def mSTabAction (cs : ClientSet) : Option ClientSet :=
  let focussed_screen_index := cs.current_screen.index
  let unfocussed_screens := cs.screens.filter (fun s => s.index ≠ focussed_screen_index)
  match unfocussed_screens.head? with
  | none => some cs
  | some unfocussed_screen =>
    (cs.tag_for_screen unfocussed_screen.index).map
      (fun t => cs.pull_tag_to_screen t)

/-- Is a trace element a `set_client_config` call? -/
def isSetClientConfig : XCall → Bool
  | .setClientConfig _ _ => true
  | _ => false

/-- Is a layout a Gaps wrapper with outer gap 10 and inner gap 10? -/
def isGaps1010 : Layout → Bool
  | .gaps 10 10 _ => true
  | _ => false

/-- A concrete all-succeeding X oracle: interning yields atom id 42, the
`_NET_WM_STATE` property reads back as `Cardinal [42]`, and config /
spawn calls succeed. -/
def happyXEnv : XEnv :=
  { internAtom := fun _ => .ok 42
    getProp := fun _ _ => .ok (some (.cardinal [42]))
    setClientConfig := fun _ _ => .ok ()
    spawn := fun _ => .ok () }

/-- A concrete X oracle whose property reads return no value. -/
def noPropXEnv : XEnv :=
  { happyXEnv with getProp := fun _ _ => .ok none }

/-- A concrete X oracle whose atom interning fails. -/
def internFailXEnv : XEnv :=
  { happyXEnv with internAtom := fun _ => .error "intern failed" }

/-- A concrete startup oracle whose key-binding resolution fails. -/
def keyFailMainEnv : MainEnv :=
  { connNew := .ok ()
    parseKeybindings := fun _ => .error "unresolvable key symbol"
    wmNew := .ok ()
    runResult := .ok () }

theorem forall2_map_self {α β : Type} {f : α → β} {R : β → α → Prop}
    (h : ∀ a, R (f a) a) : ∀ xs : List α, List.Forall₂ R (xs.map f) xs
  | [] => .nil
  | x :: xs => .cons (h x) (forall2_map_self h xs)

theorem stack_map_focusDown {α β : Type} (f : α → β) (s : Stack α) :
    (s.map f).focusDown = (s.focusDown).map f := by
  obtain ⟨up, focus, down⟩ := s
  cases down with
  | cons d ds => rfl
  | nil =>
    simp only [Stack.map, Stack.focusDown, List.map_nil, ← List.map_reverse]
    cases up.reverse with
    | nil => rfl
    | cons hd tl => simp [Stack.map]

theorem stack_map_focusUp {α β : Type} (f : α → β) (s : Stack α) :
    (s.map f).focusUp = (s.focusUp).map f := by
  obtain ⟨up, focus, down⟩ := s
  cases up with
  | cons u us => rfl
  | nil =>
    simp only [Stack.map, Stack.focusUp, List.map_nil, ← List.map_reverse]
    cases down.reverse with
    | nil => rfl
    | cons hd tl => simp [Stack.map]

/-- C4: every layout in the stack returned by `layouts()` is wrapped in
a Gaps transformer with outer gap 10 and inner gap 10; for every window
sequence and screen region, `apply` on the wrapped layout yields, for
every placement (boundary-touching ones included), the corresponding
placement of the unwrapped layout on the same window, strictly inset by
the configured gap (x and y moved in by exactly 10, width and height
shrunk by 20); messages are forwarded to the wrapped layout unchanged;
and Gaps-wrapping a whole stack commutes with cycling it. -/
theorem gaps_wrapped_layouts_inset :
    layouts.toList.all isGaps1010 = true
    ∧ (∀ (l : Layout) (ws : List Nat) (r : Rect),
        List.Forall₂
          (fun q p => q.1 = p.1
            ∧ q.2.x = p.2.x + 10 ∧ q.2.y = p.2.y + 10
            ∧ q.2.w = p.2.w - 20 ∧ q.2.h = p.2.h - 20
            ∧ p.2.x < q.2.x ∧ p.2.y < q.2.y)
          ((Gaps.wrap l 10 10).apply ws r) (l.apply ws r))
    ∧ (∀ (l : Layout) (o i : Nat) (m : Message),
        (Gaps.wrap l o i).handleMessage m = Gaps.wrap (l.handleMessage m) o i)
    ∧ (∀ s : LayoutStack,
        (s.map (fun l => Gaps.wrap l 10 10)).focusDown
          = (s.focusDown).map (fun l => Gaps.wrap l 10 10)
        ∧ (s.map (fun l => Gaps.wrap l 10 10)).focusUp
          = (s.focusUp).map (fun l => Gaps.wrap l 10 10)) := by
  refine ⟨by decide, ?_, ?_, ?_⟩
  · intro l ws r
    show List.Forall₂ _ ((l.apply ws r).map fun p => (p.1, shrinkRect p.2 10)) _
    refine forall2_map_self ?_ _
    intro a
    refine ⟨rfl, rfl, rfl, rfl, rfl, ?_, ?_⟩ <;> · simp only [shrinkRect]; omega
  · intro l o i m
    rfl
  · intro s
    exact ⟨stack_map_focusDown _ s, stack_map_focusUp _ s⟩

/-- C5: `layouts()` is a non-empty stack of exactly two layouts, the
Gaps-wrapped MainAndStack (the initial active layout) followed by the
Gaps-wrapped Monocle, and cycling it forward twice (the stack length)
returns the original active layout. -/
theorem layouts_two_gaps_full_cycle :
    layouts.length = 2
    ∧ layouts.up = []
    ∧ layouts.focus = Gaps.wrap (.mainAndStack 1 60) 10 10
    ∧ layouts.down = [Gaps.wrap .monocle 10 10]
    ∧ (layouts.focusDown.focusDown).focus = layouts.focus := by
  decide

/-- C8: on every event, each of the two hooks either returns `Ok(true)`
(when its X / spawn calls succeed) or propagates an error; neither hook
ever returns `Ok(false)`, so neither ever swallows an event. -/
theorem hooks_never_swallow_events :
    ∀ (fsh : FullScreenHook) (mh : MonitorHook) (event : XEvent) (st : WMState)
      (x : XEnv),
      ((fsh.call event st x).1 = .ok true
        ∨ ∃ err, (fsh.call event st x).1 = .error err)
      ∧ ((mh.call event st x).1 = .ok true
        ∨ ∃ err, (mh.call event st x).1 = .error err) := by
  intro fsh mh event st x
  constructor
  · cases event
    case propertyNotify e =>
      simp only [FullScreenHook.call]
      rcases hI : x.internAtom Atom.netWmStateFullscreen.as_ref with err | full
      · exact Or.inr ⟨err, rfl⟩
      · rcases hG : x.getProp e.id Atom.netWmState.as_ref with err | val
        · exact Or.inl rfl
        · match val with
          | none => exact Or.inl rfl
          | some (.other t) => exact Or.inl rfl
          | some (.cardinal vals) =>
            dsimp only
            rcases hS : x.setClientConfig e.id
                [ClientConfig.borderPx
                  (if vals.contains full then fsh.fullscreen_border_px
                   else st.config.border_width)] with err | uu
            · exact Or.inr ⟨err, rfl⟩
            · exact Or.inl rfl
    all_goals exact Or.inl rfl
  · cases event
    case randrNotify =>
      simp only [MonitorHook.call]
      split
      · next err heq => exact Or.inr ⟨err, rfl⟩
      · next u heq => exact Or.inl rfl
    all_goals exact Or.inl rfl

/-- C9: the `unwrap()` in the `"M-S-Tab"` binding never panics — for
every ClientSet, the closure is total, because the screen index handed
to `tag_for_screen` is the index of a screen obtained from
`cs.screens()`, for which the lookup returns `Some`. -/
theorem ms_tab_unwrap_total :
    ∀ cs : ClientSet, (mSTabAction cs).isSome = true := by
  intro cs
  have hdef : mSTabAction cs =
      match (cs.screens.filter fun s => s.index ≠ cs.current_screen.index).head? with
      | none => some cs
      | some u => (cs.tag_for_screen u.index).map (fun t => cs.pull_tag_to_screen t) :=
    rfl
  rw [hdef]
  cases h : (cs.screens.filter fun s => s.index ≠ cs.current_screen.index).head? with
  | none => rfl
  | some s =>
    simp only [Option.isSome_map']
    have hs : s ∈ cs.screens.filter fun t => t.index ≠ cs.current_screen.index :=
      List.mem_of_mem_head? (by rw [Option.mem_def, h])
    have hmem : s ∈ cs.screens := (List.mem_filter.mp hs).1
    simp only [ClientSet.tag_for_screen, Option.isSome_map']
    exact List.find?_isSome.mpr ⟨s, hmem, by simp⟩

/-- C10: `MonitorHook::call` never mutates the window-manager state; it
issues the `feh` wallpaper spawn exactly on `RandrNotify` events and
performs no action on any other event. -/
theorem monitorHook_state_untouched :
    ∀ (mh : MonitorHook) (event : XEvent) (st : WMState) (x : XEnv),
      (mh.call event st x).2.1 = st
      ∧ (mh.call event st x).2.2
          = if event = .randrNotify
            then [XCall.spawn ("feh --bg-max " ++ mh.wallpaper_path ++ " --no-fehbg")]
            else [] := by
  intro mh event st x
  cases event
  case randrNotify =>
    refine ⟨?_, ?_⟩ <;> simp only [MonitorHook.call] <;> split <;> simp
  all_goals exact ⟨rfl, by simp [MonitorHook.call]⟩

/-- C1: on a `PropertyNotify` event for window `w` whose
`_NET_WM_STATE_FULLSCREEN` interning succeeds and whose `_NET_WM_STATE`
read succeeds with a Cardinal value list, `FullScreenHook::call` issues
exactly the intern, the property read, and one `set_client_config` call
on `w` setting `BorderPx` to the hook's `fullscreen_border_px` (0 as
constructed in `main`) when the list contains the fullscreen atom and to
`state.config.border_width` otherwise; on any event that is not a
`PropertyNotify` it performs no X calls at all. -/
theorem fullScreenHook_border_calls :
    mainFullScreenHook.fullscreen_border_px = 0
    ∧ (∀ (hook : FullScreenHook) (e : PropertyEvent) (st : WMState) (x : XEnv)
        (full : Nat) (vals : List Nat),
        x.internAtom "_NET_WM_STATE_FULLSCREEN" = .ok full →
        x.getProp e.id "_NET_WM_STATE" = .ok (some (.cardinal vals)) →
        (hook.call (.propertyNotify e) st x).2.2
          = [.internAtom "_NET_WM_STATE_FULLSCREEN",
             .getProp e.id "_NET_WM_STATE",
             .setClientConfig e.id
               [.borderPx (if vals.contains full then hook.fullscreen_border_px
                           else st.config.border_width)]])
    ∧ (∀ (hook : FullScreenHook) (event : XEvent) (st : WMState) (x : XEnv),
        (∀ e, event ≠ .propertyNotify e) →
        (hook.call event st x).2.2 = []) := by
  refine ⟨rfl, ?_, ?_⟩
  · intro hook e st x full vals hI hG
    simp only [FullScreenHook.call, Atom.as_ref]
    rw [hI]
    dsimp only
    rw [hG]
    dsimp only
    rcases hS : x.setClientConfig e.id
        [ClientConfig.borderPx
          (if vals.contains full then hook.fullscreen_border_px
           else st.config.border_width)] with err | uu
    · rfl
    · rfl
  · intro hook event st x hne
    cases event
    case propertyNotify e => exact absurd rfl (hne e)
    all_goals rfl

/-- C1 witness: a concrete run against the all-succeeding oracle, and a
concrete non-PropertyNotify event producing no X calls. -/
theorem fullScreenHook_border_calls_witness :
    ((FullScreenHook.call ⟨0⟩ (.propertyNotify ⟨7, "_NET_WM_STATE", false⟩)
        ⟨⟨1⟩⟩ happyXEnv).2.2
      = [.internAtom "_NET_WM_STATE_FULLSCREEN", .getProp 7 "_NET_WM_STATE",
         .setClientConfig 7 [.borderPx 0]])
    ∧ (FullScreenHook.call ⟨0⟩ .randrNotify ⟨⟨1⟩⟩ happyXEnv).2.2 = [] := by
  constructor
  · have h := fullScreenHook_border_calls.2.1 ⟨0⟩ ⟨7, "_NET_WM_STATE", false⟩
      ⟨⟨1⟩⟩ happyXEnv 42 [42] rfl rfl
    simpa using h
  · exact fullScreenHook_border_calls.2.2 ⟨0⟩ .randrNotify ⟨⟨1⟩⟩ happyXEnv
      (fun e h => XEvent.noConfusion h)

/-- C2: on a `PropertyNotify` event, if the `_NET_WM_STATE` query
returns an error or no value (the fullscreen-atom interning having
succeeded), `FullScreenHook::call` makes no `set_client_config` call and
still returns `Ok(true)`, so the event loop continues. -/
theorem fullScreenHook_failed_query_recovered :
    ∀ (hook : FullScreenHook) (e : PropertyEvent) (st : WMState) (x : XEnv)
      (full : Nat),
      x.internAtom "_NET_WM_STATE_FULLSCREEN" = .ok full →
      ((∃ err, x.getProp e.id "_NET_WM_STATE" = .error err)
        ∨ x.getProp e.id "_NET_WM_STATE" = .ok none) →
      (hook.call (.propertyNotify e) st x).1 = .ok true
      ∧ ∀ c ∈ (hook.call (.propertyNotify e) st x).2.2,
          isSetClientConfig c = false := by
  intro hook e st x full hI hG
  have htrace : hook.call (.propertyNotify e) st x
      = (.ok true, st,
         [.internAtom "_NET_WM_STATE_FULLSCREEN", .getProp e.id "_NET_WM_STATE"]) := by
    simp only [FullScreenHook.call, Atom.as_ref]
    rw [hI]
    dsimp only
    rcases hG with ⟨err, hG⟩ | hG <;> rw [hG]
  rw [htrace]
  exact ⟨rfl, by simp [isSetClientConfig]⟩

/-- C2 witness: a concrete run against the oracle whose property read
returns no value. -/
theorem fullScreenHook_failed_query_recovered_witness :
    (FullScreenHook.call ⟨0⟩ (.propertyNotify ⟨7, "_NET_WM_STATE", false⟩)
        ⟨⟨1⟩⟩ noPropXEnv).1 = .ok true
    ∧ ∀ c ∈ (FullScreenHook.call ⟨0⟩ (.propertyNotify ⟨7, "_NET_WM_STATE", false⟩)
        ⟨⟨1⟩⟩ noPropXEnv).2.2, isSetClientConfig c = false :=
  fullScreenHook_failed_query_recovered ⟨0⟩ ⟨7, "_NET_WM_STATE", false⟩ ⟨⟨1⟩⟩
    noPropXEnv 42 rfl (Or.inr rfl)

/-- C3: the configuration built by `main` carries the event-hook chain
FullScreenHook-then-MonitorHook, and on every event the chain runs
FullScreenHook first and runs MonitorHook exactly when FullScreenHook
returned true (continue), on the state FullScreenHook produced. -/
theorem main_event_hook_chain_order :
    mainConfig.event_hook
      = some (.composed (.fullScreen mainFullScreenHook) (.monitor mainMonitorHook))
    ∧ (∀ (event : XEvent) (st : WMState) (x : XEnv) (st1 : WMState)
        (c1 : List XCall),
        (Hook.fullScreen mainFullScreenHook).call event st x = (.ok true, st1, c1) →
        (Hook.composed (.fullScreen mainFullScreenHook) (.monitor mainMonitorHook)).call
            event st x
          = (((Hook.monitor mainMonitorHook).call event st1 x).1,
             ((Hook.monitor mainMonitorHook).call event st1 x).2.1,
             c1 ++ ((Hook.monitor mainMonitorHook).call event st1 x).2.2))
    ∧ (∀ (event : XEvent) (st : WMState) (x : XEnv) (res : Except XError Bool)
        (st1 : WMState) (c1 : List XCall),
        (Hook.fullScreen mainFullScreenHook).call event st x = (res, st1, c1) →
        res ≠ .ok true →
        (Hook.composed (.fullScreen mainFullScreenHook) (.monitor mainMonitorHook)).call
            event st x
          = (res, st1, c1)) := by
  refine ⟨rfl, ?_, ?_⟩
  · intro event st x st1 c1 h
    show (match (Hook.fullScreen mainFullScreenHook).call event st x with
      | (.ok true, state1, calls1) =>
        match (Hook.monitor mainMonitorHook).call event state1 x with
        | (res, state2, calls2) => (res, state2, calls1 ++ calls2)
      | (res, state1, calls1) => (res, state1, calls1)) = _
    rw [h]
  · intro event st x res st1 c1 h hne
    show (match (Hook.fullScreen mainFullScreenHook).call event st x with
      | (.ok true, state1, calls1) =>
        match (Hook.monitor mainMonitorHook).call event state1 x with
        | (res, state2, calls2) => (res, state2, calls1 ++ calls2)
      | (res, state1, calls1) => (res, state1, calls1)) = _
    rw [h]
    match res, hne with
    | .error e, _ => rfl
    | .ok false, _ => rfl
    | .ok true, hne => exact absurd rfl hne

/-- C3 witness: the chain forwarding a continuing event into
MonitorHook, and short-circuiting when FullScreenHook errors. -/
theorem main_event_hook_chain_order_witness :
    (Hook.composed (.fullScreen mainFullScreenHook) (.monitor mainMonitorHook)).call
        .randrNotify ⟨⟨1⟩⟩ happyXEnv
      = (((Hook.monitor mainMonitorHook).call .randrNotify ⟨⟨1⟩⟩ happyXEnv).1,
         ((Hook.monitor mainMonitorHook).call .randrNotify ⟨⟨1⟩⟩ happyXEnv).2.1,
         [] ++ ((Hook.monitor mainMonitorHook).call .randrNotify ⟨⟨1⟩⟩ happyXEnv).2.2)
    ∧ (Hook.composed (.fullScreen mainFullScreenHook) (.monitor mainMonitorHook)).call
        (.propertyNotify ⟨7, "_NET_WM_STATE", false⟩) ⟨⟨1⟩⟩ internFailXEnv
      = (.error "intern failed", ⟨⟨1⟩⟩, [.internAtom "_NET_WM_STATE_FULLSCREEN"]) := by
  constructor
  · exact main_event_hook_chain_order.2.1 .randrNotify ⟨⟨1⟩⟩ happyXEnv ⟨⟨1⟩⟩ [] rfl
  · exact main_event_hook_chain_order.2.2 (.propertyNotify ⟨7, "_NET_WM_STATE", false⟩)
      ⟨⟨1⟩⟩ internFailXEnv (.error "intern failed") ⟨⟨1⟩⟩
      [.internAtom "_NET_WM_STATE_FULLSCREEN"] rfl (fun h => Except.noConfusion h)

/-- C6: if key-binding resolution fails, `main` returns that error after
only the connection and parsing steps: `WindowManager::new` is never
constructed and `run()` is never called, so startup aborts with no
partial window-manager state. -/
theorem main_aborts_on_keybinding_error :
    ∀ (env : MainEnv) (err : XError),
      env.connNew = .ok () →
      env.parseKeybindings raw_key_bindings = .error err →
      (mainProg env).1 = .error err
      ∧ (mainProg env).2 = [.connNew, .parseKeybindings]
      ∧ MainStep.wmNew ∉ (mainProg env).2
      ∧ MainStep.run ∉ (mainProg env).2 := by
  intro env err h1 h2
  have hp : mainProg env = (.error err, [.connNew, .parseKeybindings]) := by
    simp only [mainProg]
    rw [h1]
    dsimp only
    rw [h2]
  rw [hp]
  refine ⟨rfl, rfl, ?_, ?_⟩ <;> simp

/-- C6 witness: the concrete startup oracle whose key-binding resolution
fails. -/
theorem main_aborts_on_keybinding_error_witness :
    (mainProg keyFailMainEnv).1 = .error "unresolvable key symbol"
    ∧ (mainProg keyFailMainEnv).2 = [.connNew, .parseKeybindings]
    ∧ MainStep.wmNew ∉ (mainProg keyFailMainEnv).2
    ∧ MainStep.run ∉ (mainProg keyFailMainEnv).2 :=
  main_aborts_on_keybinding_error keyFailMainEnv "unresolvable key symbol" rfl rfl

theorem lookupKB_cons_ne (p : String × KeyHandler) (m : BindingTable) (k : String)
    (h : ¬p.1 = k) : lookupKB (p :: m) k = lookupKB m k := by
  simp [lookupKB, List.find?_cons_of_neg, h]

theorem lookupKB_cons_eq (p : String × KeyHandler) (m : BindingTable) (k : String)
    (h : p.1 = k) : lookupKB (p :: m) k = some p.2 := by
  simp [lookupKB, List.find?_cons_of_pos, h]

theorem lookupKB_map_replace (k : String) (v : KeyHandler) :
    ∀ m : BindingTable, m.any (fun p => p.1 = k) = true →
      lookupKB (m.map fun p => if p.1 = k then (k, v) else p) k = some v := by
  intro m
  induction m with
  | nil => intro h; simp at h
  | cons p ps ih =>
    intro h
    by_cases hp : p.1 = k
    · rw [List.map_cons, if_pos hp, lookupKB_cons_eq _ _ _ rfl]
    · have h' : ps.any (fun q => q.1 = k) = true := by
        simpa [List.any_cons, hp] using h
      rw [List.map_cons, if_neg hp, lookupKB_cons_ne _ _ _ hp]
      exact ih h'

theorem lookupKB_append_new (k : String) (v : KeyHandler) :
    ∀ m : BindingTable, m.any (fun p => p.1 = k) = false →
      lookupKB (m ++ [(k, v)]) k = some v := by
  intro m
  induction m with
  | nil => intro _; simp [lookupKB]
  | cons p ps ih =>
    intro h
    have hp : ¬p.1 = k := by
      intro hk
      simp [List.any_cons, hk] at h
    have h' : ps.any (fun q => q.1 = k) = false := by
      revert h
      simp [List.any_cons, hp]
    rw [List.cons_append, lookupKB_cons_ne _ _ _ hp]
    exact ih h'

theorem lookupKB_insertKB (m : BindingTable) (k : String) (v : KeyHandler) :
    lookupKB (insertKB m k v) k = some v := by
  unfold insertKB
  split
  · next hany => exact lookupKB_map_replace k v m hany
  · next hany =>
    refine lookupKB_append_new k v m ?_
    revert hany
    cases m.any (fun p => p.1 = k) <;> simp

theorem keys_insertKB (m : BindingTable) (k : String) (v : KeyHandler)
    (h : (m.map Prod.fst).Nodup) : ((insertKB m k v).map Prod.fst).Nodup := by
  unfold insertKB
  split
  · next hany =>
    have hkeys : ((m.map fun p => if p.1 = k then (k, v) else p).map Prod.fst)
        = m.map Prod.fst := by
      rw [List.map_map]
      refine List.map_congr_left ?_
      intro p _
      by_cases hp : p.1 = k
      · simp [hp]
      · simp [hp]
    rw [hkeys]
    exact h
  · next hany =>
    have hk : k ∉ m.map Prod.fst := by
      intro hmem
      rcases List.mem_map.mp hmem with ⟨p, hpmem, hpk⟩
      exact hany (List.any_eq_true.mpr ⟨p, hpmem, by simp [hpk]⟩)
    rw [List.map_append]
    simp only [List.nodup_append, List.map_cons, List.map_nil]
    refine ⟨h, List.nodup_singleton k, ?_⟩
    intro a ha hak
    rw [List.mem_singleton] at hak
    subst hak
    exact hk ha

theorem keys_buildKB (pairs : List (String × KeyHandler)) :
    ∀ m : BindingTable, (m.map Prod.fst).Nodup →
      ((buildKB m pairs).map Prod.fst).Nodup := by
  induction pairs with
  | nil => intro m h; exact h
  | cons p ps ih =>
    intro m h
    show ((buildKB (insertKB m p.1 p.2) ps).map Prod.fst).Nodup
    exact ih _ (keys_insertKB m p.1 p.2 h)

theorem keys_raw_key_bindings : (raw_key_bindings.map Prod.fst).Nodup := by
  have hfold : ∀ (tags : List String) (m : BindingTable), (m.map Prod.fst).Nodup →
      ((tags.foldl
        (fun m tag =>
          buildKB m
            [("M-" ++ tag, .modifyWith (.focusTag tag)),
             ("M-S-" ++ tag, .modifyWith (.moveFocusedToTag tag))]) m).map
        Prod.fst).Nodup := by
    intro tags
    induction tags with
    | nil => intro m h; exact h
    | cons t ts ih =>
      intro m h
      exact ih _ (keys_buildKB _ m h)
  exact hfold tagNames _ (keys_buildKB rawBindingPairs [] (by simp))

set_option maxRecDepth 200000

/-- C7: the binding table built by `raw_key_bindings` has pairwise
distinct chord keys; inserting an entry for a chord already in a table
replaces the earlier handler (key uniqueness of the underlying map); and
for every tag name "1" through "9" the table maps `M-<tag>` to
`focus_tag(tag)` and `M-S-<tag>` to `move_focused_to_tag(tag)`. -/
theorem raw_key_bindings_unique_and_tags :
    (raw_key_bindings.map Prod.fst).Nodup
    ∧ (∀ (m : BindingTable) (k : String) (v : KeyHandler),
        lookupKB (insertKB m k v) k = some v)
    ∧ (tagNames.all fun tag =>
        (lookupKB raw_key_bindings ("M-" ++ tag)
            == some (.modifyWith (.focusTag tag)))
        && (lookupKB raw_key_bindings ("M-S-" ++ tag)
            == some (.modifyWith (.moveFocusedToTag tag)))) = true :=
  ⟨keys_raw_key_bindings, lookupKB_insertKB, by decide⟩
